import Mathlib

/-!
Shallow embedding of `bcos-boostssl/websocket/WsSession.cpp` (FISCO BCOS
WebSocket session engine) and proofs about its observable behaviour.

The session owns: a transport stream handle (`m_stream`, null after
teardown), the drop flag `m_isDrop`, the response-callback registry
`m_callbacks`, and the outbound write queue `m_queue`.  External effects
(thread-pool `enqueue`, stream-level calls, timer creation) are recorded
as ghost history fields on the state, so each C++ member function becomes
a pure state transformer `WsSession → WsSession`.

The codec, the transport and the timer are external collaborators: a
decode result and the read error code enter `onRead` as parameters, and a
`WsStream` value records whether each transport call would throw (the only
behaviour of the collaborator the session observes through its
`try`/`catch` blocks).
-/

/-- Error reasons from `WsError.h` (enum values not needed by any claim,
so an inductive suffices). -/
inductive WsError
  | PingError
  | PongError
  | AcceptError
  | PacketError
  | ReadError
  | WriteError
  | TimeOut
deriving DecidableEq, Repr

/-- Behavioural model of the transport stream collaborator (`m_stream`
points to it): for each call the session wraps in `try`/`catch`, whether
that call throws. -/
structure WsStream where
  pingThrows : Bool
  pongThrows : Bool
  readThrows : Bool
  writeThrows : Bool
deriving DecidableEq, Repr

/-- The non-throwing transport used in concrete runs. -/
def okStream : WsStream := ⟨false, false, false, false⟩

/-- `ws::Options`: the per-send timeout override (C++ `int32_t`, may be
zero or negative). -/
structure Options where
  timeout : Int
deriving DecidableEq, Repr

/-- `WsSession::CallBack`: the pending response state registered under a
sequence identifier.  The response handler itself is opaque; it is
identified by a numeric tag.  `timer` records whether a deadline timer
was attached. -/
structure CallBack where
  respCallBack : Nat
  timer : Option Unit
deriving DecidableEq, Repr

/-- One task handed to `m_threadPool->enqueue`, keyed by which lambda in
the source built it.  `deliverMsg` is the lambda of `onReadPacket`
(captures weak `self`, the decoded message and the claimed callback, or
`none` when no callback was registered); `disconnectNotify` is the lambda
of `drop` (captures weak `self`); `timeoutNotify` is the lambda of
`onRespTimeout` (captures the callback and the synthesized error only —
no session reference). -/
inductive PoolTask
  | disconnectNotify
  | deliverMsg (seq : String) (cb : Option CallBack)
  | timeoutNotify (cb : CallBack)
deriving DecidableEq, Repr

/-- Observable effects of running one enqueued task on the worker pool. -/
inductive TaskEffect
  | disconnectHandler
  | respCallBack (id : Nat) (err : Option WsError) (hasMsg : Bool) (hasSession : Bool)
  | recvMessageHandler
  | timerCancel
deriving DecidableEq, Repr

/-- WsStream-level calls the session makes, recorded in order.
`nullStreamAccess` marks a call made through `m_stream` while it is null
(undefined behaviour in the C++). -/
inductive IOCall
  | closeStream
  | streamRead
  | streamWrite (buf : Nat)
  | pingFrame
  | pongFrame
  | nullStreamAccess
deriving DecidableEq, Repr

/-- The session state.  Fields prefixed `m_` are the C++ data members the
claims touch; the rest are ghost history variables recording the calls
the session has made (pool tasks enqueued, stream calls issued, drop
reasons, timers started) and the outbound-traffic bookkeeping
(`enq` = buffers appended to `m_queue` in order, `written` = buffers
handed to `m_stream->asyncWrite` in order, `completed` = entries erased
from the queue head by `onWritePacket`). -/
structure WsSession where
  m_isDrop : Bool
  m_stream : Option WsStream
  m_callbacks : String → Option CallBack
  m_queue : List Nat
  m_sendMsgTimeout : Int
  drops : List WsError
  pool : List PoolTask
  ioCalls : List IOCall
  written : List Nat
  enq : List Nat
  completed : Nat
  timers : List (String × Int)

/-- A fresh session (state right after construction): stream attached,
not dropped, empty registry and queue. -/
def mkSession (stream : Option WsStream) (sendMsgTimeout : Int) : WsSession :=
  { m_isDrop := false
    m_stream := stream
    m_callbacks := fun _ => none
    m_queue := []
    m_sendMsgTimeout := sendMsgTimeout
    drops := []
    pool := []
    ioCalls := []
    written := []
    enq := []
    completed := 0
    timers := [] }

namespace WsSession

/-- `WsSession::disconnect`: close and release the transport handle if
present; a null handle makes it a no-op. -/
def disconnect (s : WsSession) : WsSession :=
  match s.m_stream with
  | some _ => { s with m_stream := none, ioCalls := s.ioCalls ++ [IOCall.closeStream] }
  | none => s

/-- `WsSession::drop`: records the reason (ghost), sets `m_isDrop`, calls
`disconnect()`, and unconditionally enqueues the disconnect-notification
lambda on the thread pool.  The source contains no check of `m_isDrop`
before any of these steps. -/
def drop (s : WsSession) (reason : WsError) : WsSession :=
  let s1 := { s with m_isDrop := true, drops := s.drops ++ [reason] }
  let s2 := disconnect s1
  { s2 with pool := s2.pool ++ [PoolTask.disconnectNotify] }

/-- `WsSession::ping`: `try { if (m_stream) m_stream->ping(); } catch
{ drop(PingError); }`. -/
def ping (s : WsSession) : WsSession :=
  match s.m_stream with
  | some st =>
    if st.pingThrows then drop s WsError.PingError
    else { s with ioCalls := s.ioCalls ++ [IOCall.pingFrame] }
  | none => s

/-- `WsSession::pong`: `try { if (m_stream) m_stream->pong(); } catch
{ drop(PongError); }`. -/
def pong (s : WsSession) : WsSession :=
  match s.m_stream with
  | some st =>
    if st.pongThrows then drop s WsError.PongError
    else { s with ioCalls := s.ioCalls ++ [IOCall.pongFrame] }
  | none => s

/-- `WsSession::addRespCallback`: `m_callbacks[_seq] = _callback`
(insert-or-replace under the registry lock). -/
def addRespCallback (s : WsSession) (seq : String) (cb : CallBack) : WsSession :=
  { s with m_callbacks := fun x => if x = seq then some cb else s.m_callbacks x }

/-- `WsSession::getAndRemoveRespCallback`: under the registry lock, find
the entry for `_seq`; if found, remember it and, when `_remove` holds,
erase it; return the found callback (or null).  The `_remove` default
value lives in the header `WsSession.h`, which is not part of the
sources; both call sites in the `.cpp` use the default.  Modelled from
the spec: `takeAndRemove(id)` "atomically looks up and erases the entry",
so both call sites below pass `remove = true`. -/
def getAndRemoveRespCallback (s : WsSession) (seq : String) (remove : Bool) :
    Option CallBack × WsSession :=
  match s.m_callbacks seq with
  | none => (none, s)
  | some cb =>
    (some cb,
      if remove then
        { s with m_callbacks := fun x => if x = seq then none else s.m_callbacks x }
      else s)

/-- `WsSession::onReadPacket`: decode the buffered bytes (the codec's
verdict enters as `decodeStatus`, the decoded message's sequence
identifier as `seq`).  A negative status means `return
drop(PacketError)`; otherwise claim any registered callback for `seq`
and enqueue the delivery lambda on the thread pool. -/
def onReadPacket (s : WsSession) (decodeStatus : Int) (seq : String) : WsSession :=
  if decodeStatus < 0 then drop s WsError.PacketError
  else
    let r := getAndRemoveRespCallback s seq true
    { r.2 with pool := r.2.pool ++ [PoolTask.deliverMsg seq r.1] }

/-- `WsSession::asyncRead`: `try { m_stream->asyncRead(...); } catch
{ drop(ReadError); }`.  When `m_stream` is null the C++ dereferences a
null pointer (undefined behaviour, recorded as `nullStreamAccess`). -/
def asyncRead (s : WsSession) : WsSession :=
  match s.m_stream with
  | some st =>
    if st.readThrows then drop s WsError.ReadError
    else { s with ioCalls := s.ioCalls ++ [IOCall.streamRead] }
  | none => { s with ioCalls := s.ioCalls ++ [IOCall.nullStreamAccess] }

/-- `WsSession::onRead`: a transport error drops the session with
`ReadError`; otherwise `onReadPacket(buffer()); asyncRead();` — note the
source calls `asyncRead()` unconditionally after `onReadPacket`, even
when `onReadPacket` dropped the session on a decode failure. -/
def onRead (s : WsSession) (ec : Nat) (decodeStatus : Int) (seq : String) : WsSession :=
  if ec ≠ 0 then drop s WsError.ReadError
  else asyncRead (onReadPacket s decodeStatus seq)

/-- `WsSession::asyncWrite`: `try { m_stream->asyncWrite(*m_queue.front(),
...); } catch { drop(WriteError); }`.  Call sites guarantee the queue is
non-empty; `m_queue.front()` on an empty queue would be undefined
behaviour (recorded as `nullStreamAccess` would be wrong, so the empty
case simply records nothing — it is unreachable from the call sites). -/
def asyncWrite (s : WsSession) : WsSession :=
  match s.m_stream with
  | some st =>
    if st.writeThrows then drop s WsError.WriteError
    else
      match s.m_queue with
      | b :: _ =>
        { s with ioCalls := s.ioCalls ++ [IOCall.streamWrite b], written := s.written ++ [b] }
      | [] => s
  | none => { s with ioCalls := s.ioCalls ++ [IOCall.nullStreamAccess] }

/-- `WsSession::onWritePacket`: under the queue lock, erase the front
entry (it has been sent; the ghost `completed` counts these erasures) and,
if the queue is still non-empty, start transmitting the new head. -/
def onWritePacket (s : WsSession) : WsSession :=
  let s1 := { s with m_queue := s.m_queue.drop 1, completed := s.completed + 1 }
  if s1.m_queue.isEmpty then s1 else asyncWrite s1

/-- `WsSession::onWrite`: a transport error drops the session with
`WriteError`; otherwise `onWritePacket()`. -/
def onWrite (s : WsSession) (ec : Nat) : WsSession :=
  if ec ≠ 0 then drop s WsError.WriteError
  else onWritePacket s

/-- The `if (_respFunc)` block of `WsSession::asyncSendMessage`: build the
`CallBack`, compute the effective timeout (`_options.timeout > 0 ?
_options.timeout : m_sendMsgTimeout`), start a deadline timer only when
the effective timeout is positive (ghost `timers` records the started
timer and its duration), and register the callback under `seq`. -/
def registerRespCallback (s : WsSession) (seq : String) (opts : Options) (rid : Nat) :
    WsSession :=
  let timeout := if opts.timeout > 0 then opts.timeout else s.m_sendMsgTimeout
  if timeout > 0 then
    addRespCallback { s with timers := s.timers ++ [(seq, timeout)] } seq
      { respCallBack := rid, timer := some () }
  else
    addRespCallback s seq { respCallBack := rid, timer := none }

/-- `WsSession::asyncSendMessage`: encode the message (`buf` stands for
the encoded buffer), register a pending callback when a response handler
is supplied (`respFunc`, identified by its opaque tag), then under the
queue lock append the buffer (ghost `enq` records the append order) and
start a transmission only if the queue was empty immediately before the
append. -/
def asyncSendMessage (s : WsSession) (seq : String) (buf : Nat) (opts : Options)
    (respFunc : Option Nat) : WsSession :=
  let s1 :=
    match respFunc with
    | some rid => registerRespCallback s seq opts rid
    | none => s
  let wasEmpty := s1.m_queue.isEmpty
  let s2 := { s1 with m_queue := s1.m_queue ++ [buf], enq := s1.enq ++ [buf] }
  if wasEmpty then asyncWrite s2 else s2

/-- `WsSession::onRespTimeout`: a non-zero timer error code (cancellation)
returns immediately; otherwise claim the callback for `seq` and, if one
was still registered, enqueue the timeout-notification lambda (which
captures only the callback and the synthesized `TimeOut` error). -/
def onRespTimeout (s : WsSession) (ec : Nat) (seq : String) : WsSession :=
  if ec ≠ 0 then s
  else
    let r := getAndRemoveRespCallback s seq true
    match r.1 with
    | none => r.2
    | some cb => { r.2 with pool := r.2.pool ++ [PoolTask.timeoutNotify cb] }

end WsSession

/-- Execution of one enqueued pool task, given whether the weak session
reference still resolves (`alive`).  Mirrors the three lambdas:
the `drop` lambda locks the weak pointer and bails out when dead; the
`onReadPacket` lambda does the same, then cancels the callback's timer
and fires the response callback, or fires the generic receive handler
when no callback was claimed; the `onRespTimeout` lambda captures no
session reference and fires the response callback unconditionally with
the `TimeOut` error, a null message and a null session. -/
def runTask (alive : Bool) : PoolTask → List TaskEffect
  | PoolTask.disconnectNotify => if alive then [TaskEffect.disconnectHandler] else []
  | PoolTask.deliverMsg _ cb =>
    if alive then
      match cb with
      | some c =>
        (if c.timer.isSome then [TaskEffect.timerCancel] else []) ++
          [TaskEffect.respCallBack c.respCallBack none true true]
      | none => [TaskEffect.recvMessageHandler]
    else []
  | PoolTask.timeoutNotify cb =>
    [TaskEffect.respCallBack cb.respCallBack (some WsError.TimeOut) false false]

/-- External events driving the outbound queue of one session: a producer
thread calling `asyncSendMessage` (with the message's sequence id, its
encoded buffer, the timeout option and an optional response handler), or
the transport signalling successful completion of the in-flight write
(`onWrite` with a zero error code). -/
inductive Ev
  | send (seq : String) (buf : Nat) (timeout : Int) (respFunc : Option Nat)
  | writeDone
deriving DecidableEq, Repr

/-- One step of the outbound-queue transition system. -/
def step (s : WsSession) : Ev → WsSession
  | Ev.send seq buf t r => s.asyncSendMessage seq buf { timeout := t } r
  | Ev.writeDone => s.onWrite 0

/-- Run a list of events from a state. -/
def run (s : WsSession) : List Ev → WsSession
  | [] => s
  | ev :: rest => run (step s ev) rest

/-- An event list is valid from a state when every `writeDone` occurs
while the queue is non-empty, i.e. a write completion is only delivered
for a write the session actually started (the transport collaborator
guarantees this; `onWritePacket` on an empty queue would be undefined
behaviour in the C++). -/
def validFrom (s : WsSession) : List Ev → Bool
  | [] => true
  | ev :: rest =>
    (match ev with
     | Ev.writeDone => !s.m_queue.isEmpty
     | _ => true) && validFrom (step s ev) rest

/-- The initial state used for outbound-queue runs: fresh session on a
healthy transport. -/
def fifoInit : WsSession := mkSession (some okStream) 0

/-- Invariant tying the ghost traffic bookkeeping to the queue: the queue
is exactly the not-yet-erased suffix of the append order; the buffers
handed to the transport are exactly the first `completed` appends plus,
when the queue is non-empty, the current head (the one in-flight write). -/
def FifoInv (s : WsSession) : Prop :=
  s.m_stream = some okStream
  ∧ s.m_queue = s.enq.drop s.completed
  ∧ s.written = s.enq.take (s.completed + (if s.m_queue = [] then 0 else 1))
  ∧ s.completed + (if s.m_queue = [] then 0 else 1) ≤ s.enq.length

/-- A session mid-transmission: one send issued, its write in flight. -/
def demoBusy : WsSession := step fifoInit (Ev.send "a" 1 0 none)

/-- A session with one write in flight and one queued entry behind it. -/
def demoBusy2 : WsSession := run fifoInit [Ev.send "a" 1 0 none, Ev.send "b" 2 0 none]

/-- Two sends followed by both completions. -/
def demoTrace : List Ev :=
  [Ev.send "a" 1 0 none, Ev.send "b" 2 0 none, Ev.writeDone, Ev.writeDone]

/-- A session with one pending callback registered under `"abc"`. -/
def demoReg : WsSession :=
  (mkSession (some okStream) 0).addRespCallback "abc" { respCallBack := 5, timer := some () }

namespace WsSession

@[simp] theorem disconnect_callbacks (s : WsSession) :
    (s.disconnect).m_callbacks = s.m_callbacks := by
  cases hs : s.m_stream <;> simp [disconnect, hs]

@[simp] theorem disconnect_queue (s : WsSession) : (s.disconnect).m_queue = s.m_queue := by
  cases hs : s.m_stream <;> simp [disconnect, hs]

@[simp] theorem disconnect_enq (s : WsSession) : (s.disconnect).enq = s.enq := by
  cases hs : s.m_stream <;> simp [disconnect, hs]

@[simp] theorem disconnect_written (s : WsSession) : (s.disconnect).written = s.written := by
  cases hs : s.m_stream <;> simp [disconnect, hs]

@[simp] theorem disconnect_completed (s : WsSession) : (s.disconnect).completed = s.completed := by
  cases hs : s.m_stream <;> simp [disconnect, hs]

@[simp] theorem disconnect_timers (s : WsSession) : (s.disconnect).timers = s.timers := by
  cases hs : s.m_stream <;> simp [disconnect, hs]

@[simp] theorem drop_callbacks (s : WsSession) (r : WsError) :
    (s.drop r).m_callbacks = s.m_callbacks := by
  simp [drop]

@[simp] theorem drop_queue (s : WsSession) (r : WsError) : (s.drop r).m_queue = s.m_queue := by
  simp [drop]

@[simp] theorem drop_enq (s : WsSession) (r : WsError) : (s.drop r).enq = s.enq := by
  simp [drop]

@[simp] theorem drop_written (s : WsSession) (r : WsError) : (s.drop r).written = s.written := by
  simp [drop]

@[simp] theorem drop_completed (s : WsSession) (r : WsError) :
    (s.drop r).completed = s.completed := by
  simp [drop]

@[simp] theorem drop_timers (s : WsSession) (r : WsError) : (s.drop r).timers = s.timers := by
  simp [drop]

@[simp] theorem asyncWrite_callbacks (s : WsSession) :
    (s.asyncWrite).m_callbacks = s.m_callbacks := by
  unfold asyncWrite
  split <;> [skip; simp]
  split <;> [simp; skip]
  split <;> simp

@[simp] theorem asyncWrite_queue (s : WsSession) : (s.asyncWrite).m_queue = s.m_queue := by
  unfold asyncWrite
  split <;> [skip; simp]
  split <;> [simp; skip]
  split <;> simp

@[simp] theorem asyncWrite_enq (s : WsSession) : (s.asyncWrite).enq = s.enq := by
  unfold asyncWrite
  split <;> [skip; simp]
  split <;> [simp; skip]
  split <;> simp

@[simp] theorem asyncWrite_completed (s : WsSession) : (s.asyncWrite).completed = s.completed := by
  unfold asyncWrite
  split <;> [skip; simp]
  split <;> [simp; skip]
  split <;> simp

@[simp] theorem asyncWrite_timers (s : WsSession) : (s.asyncWrite).timers = s.timers := by
  unfold asyncWrite
  split <;> [skip; simp]
  split <;> [simp; skip]
  split <;> simp

/-- A successful `getAndRemoveRespCallback` with removal on a registered
key returns the callback and erases exactly that key. -/
theorem getAndRemove_found (s : WsSession) (seq : String) (cb : CallBack)
    (h : s.m_callbacks seq = some cb) :
    s.getAndRemoveRespCallback seq true
      = (some cb,
         { s with m_callbacks := fun x => if x = seq then none else s.m_callbacks x }) := by
  simp [getAndRemoveRespCallback, h]

/-- `getAndRemoveRespCallback` on an unregistered key is a no-op
returning "not found". -/
theorem getAndRemove_missing (s : WsSession) (seq : String)
    (h : s.m_callbacks seq = none) :
    s.getAndRemoveRespCallback seq true = (none, s) := by
  simp [getAndRemoveRespCallback, h]

/-- `onReadPacket` on a successful decode whose sequence id is
registered: the entry is claimed and the delivery task carries it. -/
theorem onReadPacket_found (s : WsSession) (st : Int) (seq : String) (cb : CallBack)
    (h : s.m_callbacks seq = some cb) (hst : ¬ st < 0) :
    s.onReadPacket st seq
      = { s with m_callbacks := fun x => if x = seq then none else s.m_callbacks x,
                 pool := s.pool ++ [PoolTask.deliverMsg seq (some cb)] } := by
  simp [onReadPacket, getAndRemove_found s seq cb h, hst]

/-- `onReadPacket` on a successful decode whose sequence id is not
registered: the registry is untouched and the delivery task carries no
callback. -/
theorem onReadPacket_missing (s : WsSession) (st : Int) (seq : String)
    (h : s.m_callbacks seq = none) (hst : ¬ st < 0) :
    s.onReadPacket st seq = { s with pool := s.pool ++ [PoolTask.deliverMsg seq none] } := by
  simp [onReadPacket, getAndRemove_missing s seq h, hst]

/-- `onRespTimeout` with expiry (zero error code) on an unregistered key
does nothing. -/
theorem onRespTimeout_missing (s : WsSession) (seq : String)
    (h : s.m_callbacks seq = none) :
    s.onRespTimeout 0 seq = s := by
  simp [onRespTimeout, getAndRemove_missing s seq h]

/-- `onRespTimeout` with expiry on a registered key claims the entry and
enqueues the timeout-notification task. -/
theorem onRespTimeout_found (s : WsSession) (seq : String) (cb : CallBack)
    (h : s.m_callbacks seq = some cb) :
    s.onRespTimeout 0 seq
      = { s with m_callbacks := fun x => if x = seq then none else s.m_callbacks x,
                 pool := s.pool ++ [PoolTask.timeoutNotify cb] } := by
  simp [onRespTimeout, getAndRemove_found s seq cb h]

end WsSession

/-- C1: the claim says only the first effective `drop` call closes the
transport and schedules the disconnect handler, so the handler is invoked
exactly once.  Evaluating the code on two consecutive `drop` calls from a
fresh session: the transport is indeed closed only once (`disconnect`
checks the null handle), but the disconnect-notification task is
enqueued on every call — two tasks after two calls — and each task fired
while the session is alive invokes the disconnect handler, so the handler
runs twice.  `m_isDrop` is set but never consulted. -/
theorem drop_twice_double_disconnect_notify :
    (((mkSession (some okStream) 0).drop WsError.ReadError).drop WsError.WriteError).ioCalls
        = [IOCall.closeStream]
    ∧ (((mkSession (some okStream) 0).drop WsError.ReadError).drop WsError.WriteError).pool
        = [PoolTask.disconnectNotify, PoolTask.disconnectNotify]
    ∧ runTask true PoolTask.disconnectNotify = [TaskEffect.disconnectHandler] := by
  decide

/-- C2: `getAndRemoveRespCallback` with removal looks up and erases in
one operation; once a call has claimed the entry for a sequence id, the
same lookup returns "not found", so when the response path
(`onReadPacket`) claims first a following timer expiry is a complete
no-op, and when the timeout path (`onRespTimeout`) claims first the
response path observes "not found" and its delivery task carries no
callback — exactly one of the two deliveries occurs. -/
theorem take_and_remove_exactly_once (s : WsSession) (seq : String) (cb : CallBack)
    (h : s.m_callbacks seq = some cb) :
    (s.getAndRemoveRespCallback seq true).1 = some cb
    ∧ ((s.getAndRemoveRespCallback seq true).2.getAndRemoveRespCallback seq true).1 = none
    ∧ (s.onReadPacket 0 seq).onRespTimeout 0 seq = s.onReadPacket 0 seq
    ∧ ((s.onRespTimeout 0 seq).onReadPacket 0 seq).pool
        = (s.onRespTimeout 0 seq).pool ++ [PoolTask.deliverMsg seq none] := by
  refine ⟨?_, ?_, ?_, ?_⟩
  · rw [WsSession.getAndRemove_found s seq cb h]
  · rw [WsSession.getAndRemove_found s seq cb h]
    rw [WsSession.getAndRemove_missing _ seq (by simp)]
  · rw [WsSession.onReadPacket_found s 0 seq cb h (by norm_num)]
    exact WsSession.onRespTimeout_missing _ seq (by simp)
  · rw [WsSession.onRespTimeout_found s seq cb h]
    rw [WsSession.onReadPacket_missing _ 0 seq (by simp) (by norm_num)]

/-- Witness for C2 at a concrete registry holding `"abc"`. -/
theorem take_and_remove_exactly_once_w :
    (demoReg.getAndRemoveRespCallback "abc" true).1
        = some { respCallBack := 5, timer := some () }
    ∧ ((demoReg.getAndRemoveRespCallback "abc" true).2.getAndRemoveRespCallback "abc" true).1
        = none
    ∧ (demoReg.onReadPacket 0 "abc").onRespTimeout 0 "abc" = demoReg.onReadPacket 0 "abc"
    ∧ ((demoReg.onRespTimeout 0 "abc").onReadPacket 0 "abc").pool
        = (demoReg.onRespTimeout 0 "abc").pool ++ [PoolTask.deliverMsg "abc" none] :=
  take_and_remove_exactly_once demoReg "abc" { respCallBack := 5, timer := some () } (by decide)

/-- C4: on a decode failure (negative status) the session drops with
`PacketError` and dispatches no handler task for the malformed input —
but, contrary to the claim, `onRead` then still calls `asyncRead()`: the
`return drop(PacketError)` only leaves `onReadPacket`, so the read is
re-armed through the already-nulled transport handle (the trailing
`nullStreamAccess`, undefined behaviour in the C++). -/
theorem decode_failure_drops_but_rearms :
    ((mkSession (some okStream) 0).onRead 0 (-1) "bad").drops = [WsError.PacketError]
    ∧ ((mkSession (some okStream) 0).onRead 0 (-1) "bad").pool = [PoolTask.disconnectNotify]
    ∧ ((mkSession (some okStream) 0).onRead 0 (-1) "bad").ioCalls
        = [IOCall.closeStream, IOCall.nullStreamAccess] := by
  decide

/-- C5: the claim says that once `m_isDrop` is set no new read or write
is issued.  Evaluating the code: after `drop`, `m_isDrop` is true, yet a
subsequent `asyncSendMessage` still reaches `asyncWrite` (trailing
`nullStreamAccess` through the nulled handle), and the decode-failure
read completion re-arms `asyncRead` after its own `drop` — the flag is
never consulted by any I/O path. -/
theorem post_drop_io_still_issued :
    ((mkSession (some okStream) 0).drop WsError.ReadError).m_isDrop = true
    ∧ (((mkSession (some okStream) 0).drop WsError.ReadError).asyncSendMessage "q" 7
          { timeout := 0 } none).ioCalls
        = [IOCall.closeStream, IOCall.nullStreamAccess]
    ∧ ((mkSession (some okStream) 0).onRead 0 (-1) "x").m_isDrop = true
    ∧ ((mkSession (some okStream) 0).onRead 0 (-1) "x").ioCalls
        = [IOCall.closeStream, IOCall.nullStreamAccess] := by
  decide

/-- C7 counterexample: the timeout-delivery task enqueued by
`onRespTimeout` is a task the session hands to the worker pool, yet when
the session no longer resolves (`alive = false`) it still invokes the
stored response handler — the claim that every deferred task silently
discards its work in that case is false. -/
theorem timeout_task_fires_without_session_cex :
    (demoReg.onRespTimeout 0 "abc").pool
        = [PoolTask.timeoutNotify { respCallBack := 5, timer := some () }]
    ∧ runTask false (PoolTask.timeoutNotify { respCallBack := 5, timer := some () })
        = [TaskEffect.respCallBack 5 (some WsError.TimeOut) false false] := by
  decide

/-- C7 amended: the received-message/correlated-response delivery task
and the disconnect-notification task capture only a weak session
reference and invoke no handler when it no longer resolves; the
timeout-delivery task captures no session reference at all and always
invokes the stored response handler with the `TimeOut` error, no message
and no session. -/
theorem deferred_task_weak_guard :
    runTask false PoolTask.disconnectNotify = []
    ∧ (∀ (seq : String) (cb : Option CallBack), runTask false (PoolTask.deliverMsg seq cb) = [])
    ∧ (∀ cb : CallBack,
        runTask false (PoolTask.timeoutNotify cb)
          = [TaskEffect.respCallBack cb.respCallBack (some WsError.TimeOut) false false]) :=
  ⟨rfl, fun _ _ => rfl, fun _ => rfl⟩

/-- C8: a successfully decoded message whose sequence id has no
registered callback: the lookup reports "not found" without touching the
registry (no key is altered), the session is not dropped, and the
dispatched task invokes the generic receive handler. -/
theorem unknown_seq_generic_dispatch (s : WsSession) (st : Int) (seq : String)
    (h : s.m_callbacks seq = none) (hst : ¬ st < 0) :
    (s.getAndRemoveRespCallback seq true).1 = none
    ∧ (s.getAndRemoveRespCallback seq true).2 = s
    ∧ (s.onReadPacket st seq).m_callbacks = s.m_callbacks
    ∧ (s.onReadPacket st seq).drops = s.drops
    ∧ (s.onReadPacket st seq).pool = s.pool ++ [PoolTask.deliverMsg seq none]
    ∧ runTask true (PoolTask.deliverMsg seq none) = [TaskEffect.recvMessageHandler] := by
  rw [WsSession.getAndRemove_missing s seq h, WsSession.onReadPacket_missing s st seq h hst]
  exact ⟨rfl, rfl, rfl, rfl, rfl, rfl⟩

/-- Witness for C8: a fresh session receiving sequence `"zzz"`. -/
theorem unknown_seq_generic_dispatch_w :
    ((mkSession (some okStream) 0).getAndRemoveRespCallback "zzz" true).1 = none
    ∧ ((mkSession (some okStream) 0).getAndRemoveRespCallback "zzz" true).2
        = mkSession (some okStream) 0
    ∧ ((mkSession (some okStream) 0).onReadPacket 0 "zzz").m_callbacks
        = (mkSession (some okStream) 0).m_callbacks
    ∧ ((mkSession (some okStream) 0).onReadPacket 0 "zzz").drops
        = (mkSession (some okStream) 0).drops
    ∧ ((mkSession (some okStream) 0).onReadPacket 0 "zzz").pool
        = (mkSession (some okStream) 0).pool ++ [PoolTask.deliverMsg "zzz" none]
    ∧ runTask true (PoolTask.deliverMsg "zzz" none) = [TaskEffect.recvMessageHandler] :=
  unknown_seq_generic_dispatch (mkSession (some okStream) 0) 0 "zzz" rfl (by norm_num)

/-- C9: with a null transport handle, `ping()` and `pong()` are complete
no-ops: the state is unchanged (so no control frame is recorded, no
`drop` happens) and, the model being a total function mirroring the
guarded `if (m_stream)`, no exception escapes. -/
theorem ping_pong_null_stream_noop (s : WsSession) (h : s.m_stream = none) :
    s.ping = s ∧ s.pong = s := by
  constructor <;> simp [WsSession.ping, WsSession.pong, h]

/-- Witness for C9 on a concrete torn-down session. -/
theorem ping_pong_null_stream_noop_w :
    (mkSession none 0).ping = mkSession none 0 ∧ (mkSession none 0).pong = mkSession none 0 :=
  ping_pong_null_stream_noop (mkSession none 0) rfl

/-- C10: a timer completion with a non-zero error code (cancellation)
returns immediately: the whole session state — in particular the
callback registry at every key and the task pool — is unchanged. -/
theorem onRespTimeout_cancelled_noop (s : WsSession) (ec : Nat) (seq : String) (h : ec ≠ 0) :
    s.onRespTimeout ec seq = s := by
  simp [WsSession.onRespTimeout, h]

/-- Witness for C10: cancelled timer on a session with a live callback. -/
theorem onRespTimeout_cancelled_noop_w : demoReg.onRespTimeout 1 "abc" = demoReg :=
  onRespTimeout_cancelled_noop demoReg 1 "abc" (by decide)

namespace WsSession

@[simp] theorem registerRespCallback_queue (s : WsSession) (seq : String) (opts : Options)
    (rid : Nat) : (s.registerRespCallback seq opts rid).m_queue = s.m_queue := by
  simp only [registerRespCallback, addRespCallback]; split_ifs <;> rfl

@[simp] theorem registerRespCallback_enq (s : WsSession) (seq : String) (opts : Options)
    (rid : Nat) : (s.registerRespCallback seq opts rid).enq = s.enq := by
  simp only [registerRespCallback, addRespCallback]; split_ifs <;> rfl

@[simp] theorem registerRespCallback_written (s : WsSession) (seq : String) (opts : Options)
    (rid : Nat) : (s.registerRespCallback seq opts rid).written = s.written := by
  simp only [registerRespCallback, addRespCallback]; split_ifs <;> rfl

@[simp] theorem registerRespCallback_completed (s : WsSession) (seq : String) (opts : Options)
    (rid : Nat) : (s.registerRespCallback seq opts rid).completed = s.completed := by
  simp only [registerRespCallback, addRespCallback]; split_ifs <;> rfl

@[simp] theorem registerRespCallback_stream (s : WsSession) (seq : String) (opts : Options)
    (rid : Nat) : (s.registerRespCallback seq opts rid).m_stream = s.m_stream := by
  simp only [registerRespCallback, addRespCallback]; split_ifs <;> rfl

/-- The registration block stores the callback under the message's own
sequence id, with a timer handle exactly when the effective timeout is
positive. -/
theorem registerRespCallback_lookup (s : WsSession) (seq : String) (opts : Options)
    (rid : Nat) :
    (s.registerRespCallback seq opts rid).m_callbacks seq
      = some { respCallBack := rid,
               timer := if (if opts.timeout > 0 then opts.timeout else s.m_sendMsgTimeout) > 0
                        then some () else none } := by
  simp only [registerRespCallback, addRespCallback]
  by_cases h : (if opts.timeout > 0 then opts.timeout else s.m_sendMsgTimeout) > 0
  · rw [if_pos h, if_pos h]; simp
  · rw [if_neg h, if_neg h]; simp

/-- The registration block starts exactly one timer, with the effective
timeout, when that timeout is positive — and none otherwise. -/
theorem registerRespCallback_timers (s : WsSession) (seq : String) (opts : Options)
    (rid : Nat) :
    (s.registerRespCallback seq opts rid).timers
      = s.timers ++
          (if (if opts.timeout > 0 then opts.timeout else s.m_sendMsgTimeout) > 0
           then [(seq, if opts.timeout > 0 then opts.timeout else s.m_sendMsgTimeout)]
           else []) := by
  simp only [registerRespCallback, addRespCallback]
  by_cases h : (if opts.timeout > 0 then opts.timeout else s.m_sendMsgTimeout) > 0
  · rw [if_pos h, if_pos h]
  · rw [if_neg h, if_neg h]; simp

end WsSession

/-- C6: `asyncSendMessage` with a response handler registers a
`PendingCallback` under the message's sequence identifier; the timeout is
the one from the options when positive, otherwise the session default
`m_sendMsgTimeout`; a timer is created (with that effective timeout)
exactly when the effective timeout is positive, so a timeout of zero or
less starts no timer and the stored callback carries no timer handle. -/
theorem asyncSendMessage_registers_callback (s : WsSession) (seq : String) (buf : Nat)
    (opts : Options) (rid : Nat) :
    (s.asyncSendMessage seq buf opts (some rid)).m_callbacks seq
      = some { respCallBack := rid,
               timer := if (if opts.timeout > 0 then opts.timeout else s.m_sendMsgTimeout) > 0
                        then some () else none }
    ∧ (s.asyncSendMessage seq buf opts (some rid)).timers
      = s.timers ++
          (if (if opts.timeout > 0 then opts.timeout else s.m_sendMsgTimeout) > 0
           then [(seq, if opts.timeout > 0 then opts.timeout else s.m_sendMsgTimeout)]
           else []) := by
  simp only [WsSession.asyncSendMessage]
  constructor
  · split
    · rw [WsSession.asyncWrite_callbacks]
      exact WsSession.registerRespCallback_lookup s seq opts rid
    · exact WsSession.registerRespCallback_lookup s seq opts rid
  · split
    · rw [WsSession.asyncWrite_timers]
      exact WsSession.registerRespCallback_timers s seq opts rid
    · exact WsSession.registerRespCallback_timers s seq opts rid

namespace WsSession

/-- `asyncWrite` on a healthy transport with a non-empty queue records
exactly one transmission: the queue head. -/
theorem asyncWrite_ok (s : WsSession) (b : Nat) (rest : List Nat)
    (hst : s.m_stream = some okStream) (hq : s.m_queue = b :: rest) :
    s.asyncWrite = { s with ioCalls := s.ioCalls ++ [IOCall.streamWrite b],
                            written := s.written ++ [b] } := by
  simp [asyncWrite, hst, hq, okStream]

/-- A send while the queue is non-empty only appends: no transmission is
started. -/
theorem asyncSendMessage_busy (s : WsSession) (seq : String) (buf : Nat) (opts : Options)
    (r : Option Nat) (hne : s.m_queue ≠ []) :
    (s.asyncSendMessage seq buf opts r).written = s.written
    ∧ (s.asyncSendMessage seq buf opts r).m_queue = s.m_queue ++ [buf] := by
  cases r with
  | none => simp [asyncSendMessage, hne]
  | some rid => simp [asyncSendMessage, hne]

/-- A write completion pops exactly the head entry. -/
theorem onWritePacket_queue (s : WsSession) : (s.onWritePacket).m_queue = s.m_queue.drop 1 := by
  simp only [onWritePacket]
  split
  · rfl
  · rw [asyncWrite_queue]

/-- A write completion with a remaining entry starts transmitting the new
head. -/
theorem onWritePacket_starts_next (s : WsSession) (hst : s.m_stream = some okStream)
    (hne : s.m_queue.drop 1 ≠ []) :
    (s.onWritePacket).written = s.written ++ (s.m_queue.drop 1).take 1 := by
  simp only [onWritePacket]
  cases hq : s.m_queue.drop 1 with
  | nil => exact absurd hq hne
  | cons c rest =>
    rw [if_neg (by simp)]
    rw [asyncWrite_ok _ c rest (by simpa using hst) (by simp)]
    simp

end WsSession

/-- The fresh session satisfies the outbound-queue invariant. -/
theorem fifoInit_inv : FifoInv fifoInit := by
  unfold FifoInv fifoInit mkSession
  refine ⟨rfl, rfl, rfl, by simp⟩

/-- The queue block of `asyncSendMessage` (append; transmit immediately
only if the queue was empty just before) preserves the invariant. -/
theorem fifoInv_enqueue (s : WsSession) (buf : Nat) (hInv : FifoInv s) :
    FifoInv (if s.m_queue.isEmpty
             then WsSession.asyncWrite
               { s with m_queue := s.m_queue ++ [buf], enq := s.enq ++ [buf] }
             else { s with m_queue := s.m_queue ++ [buf], enq := s.enq ++ [buf] }) := by
  obtain ⟨hst, hq, hw, hlen⟩ := hInv
  by_cases h0 : s.m_queue.isEmpty
  · have hqe : s.m_queue = [] := List.isEmpty_iff.mp h0
    have hCge : s.enq.length ≤ s.completed := List.drop_eq_nil_iff.mp (hqe ▸ hq).symm
    have hCle : s.completed ≤ s.enq.length := by
      have := hlen; rw [hqe] at this; simpa using this
    have hC : s.completed = s.enq.length := le_antisymm hCle hCge
    have hwE : s.written = s.enq := by
      rw [hqe] at hw; simpa [hC] using hw
    rw [if_pos h0]
    rw [WsSession.asyncWrite_ok _ buf [] (by simpa using hst) (by simp [hqe])]
    refine ⟨by simpa using hst, ?_, ?_, ?_⟩
    · simp [hqe, hC]
    · simp [hwE, hC, List.take_of_length_le]
    · simp [hC]
  · have hne : s.m_queue ≠ [] := by
      intro hcon; exact h0 (by simp [hcon])
    have hw1 : s.written = s.enq.take (s.completed + 1) := by simpa [hne] using hw
    have hlen1 : s.completed + 1 ≤ s.enq.length := by simpa [hne] using hlen
    rw [if_neg h0]
    refine ⟨by simpa using hst, ?_, ?_, ?_⟩
    · show s.m_queue ++ [buf] = (s.enq ++ [buf]).drop s.completed
      rw [List.drop_append_eq_append_drop, Nat.sub_eq_zero_of_le (by omega), hq]
      simp
    · show s.written = (s.enq ++ [buf]).take (s.completed + _)
      have hne2 : s.m_queue ++ [buf] ≠ [] := by simp
      rw [if_neg hne2, List.take_append_eq_append_take,
        Nat.sub_eq_zero_of_le (by omega), hw1]
      simp
    · have hne2 : s.m_queue ++ [buf] ≠ [] := by simp
      rw [if_neg hne2]
      simp
      omega

/-- `asyncSendMessage` preserves the invariant (the registration block
touches only the registry and timers). -/
theorem fifoInv_send (s : WsSession) (seq : String) (buf : Nat) (opts : Options)
    (r : Option Nat) (hInv : FifoInv s) :
    FifoInv (s.asyncSendMessage seq buf opts r) := by
  cases r with
  | none =>
    have h := fifoInv_enqueue s buf hInv
    simpa [WsSession.asyncSendMessage] using h
  | some rid =>
    have hInv1 : FifoInv (s.registerRespCallback seq opts rid) := by
      obtain ⟨hst, hq, hw, hlen⟩ := hInv
      exact ⟨by simpa using hst, by simpa using hq, by simpa using hw, by simpa using hlen⟩
    have h := fifoInv_enqueue (s.registerRespCallback seq opts rid) buf hInv1
    simpa [WsSession.asyncSendMessage] using h

/-- A successful write completion preserves the invariant. -/
theorem fifoInv_writeDone (s : WsSession) (hInv : FifoInv s) (hne : s.m_queue ≠ []) :
    FifoInv (s.onWrite 0) := by
  obtain ⟨hst, hq, hw, hlen⟩ := hInv
  have hw1 : s.written = s.enq.take (s.completed + 1) := by simpa [hne] using hw
  have hlen1 : s.completed + 1 ≤ s.enq.length := by simpa [hne] using hlen
  have h0 : s.onWrite 0 = s.onWritePacket := by simp [WsSession.onWrite]
  rw [h0]
  simp only [WsSession.onWritePacket]
  cases hq2 : s.m_queue with
  | nil => exact absurd hq2 hne
  | cons a qt =>
    have hdrop : s.enq.drop (s.completed + 1) = qt := by
      have h12 : (s.enq.drop s.completed).drop 1 = s.enq.drop (s.completed + 1) :=
        List.drop_drop 1 s.completed s.enq
      rw [← h12, ← hq, hq2]
      rfl
    cases qt with
    | nil =>
      rw [if_pos (by simp)]
      exact ⟨by simpa using hst, by simpa using hdrop.symm, by simpa using hw1,
        by simpa using hlen1⟩
    | cons c rest =>
      rw [if_neg (by simp)]
      rw [WsSession.asyncWrite_ok _ c rest (by simpa using hst) (by simp)]
      have hlen2 : s.completed + 1 + 1 ≤ s.enq.length := by
        have := List.length_drop (s.completed + 1) s.enq
        rw [hdrop] at this
        simp at this
        omega
      have hne2 : (c :: rest : List Nat) ≠ [] := by simp
      refine ⟨by simpa using hst, by simpa using hdrop.symm, ?_, ?_⟩
      · show s.written ++ [c]
            = s.enq.take ((s.completed + 1) + if (c :: rest : List Nat) = [] then 0 else 1)
        rw [if_neg hne2, List.take_add, hdrop, ← hw1]
        rfl
      · show (s.completed + 1) + (if (c :: rest : List Nat) = [] then 0 else 1) ≤ s.enq.length
        rw [if_neg hne2]
        simpa using hlen2

/-- The invariant holds after any valid event trace. -/
theorem fifoInv_run (evs : List Ev) : ∀ s : WsSession, FifoInv s → validFrom s evs = true →
    FifoInv (run s evs) := by
  induction evs with
  | nil => intro s h _; exact h
  | cons ev rest ih =>
    intro s h hv
    rw [run]
    cases ev with
    | send seq b t r =>
      refine ih _ (fifoInv_send s seq b { timeout := t } r h) ?_
      have heq : validFrom s (Ev.send seq b t r :: rest)
          = (true && validFrom (step s (Ev.send seq b t r)) rest) := rfl
      rw [heq, Bool.true_and] at hv
      exact hv
    | writeDone =>
      have hv' : ((!s.m_queue.isEmpty) && validFrom (step s Ev.writeDone) rest) = true := hv
      rw [Bool.and_eq_true] at hv'
      have hne : s.m_queue ≠ [] := by
        have h1 := hv'.1
        intro hcon
        rw [hcon] at h1
        exact absurd h1 (by simp)
      exact ih _ (fifoInv_writeDone s h hne) hv'.2

/-- C3: the outbound queue is strict FIFO.  For every valid event trace
(concurrent producers calling `asyncSendMessage`, the transport
completing writes): the buffers handed to the transport are a prefix of
the buffers enqueued, in enqueue order; at most one transmission is in
flight at any instant (started minus completed is 0 or 1); the queue is
exactly the not-yet-completed suffix of the enqueue order, so each write
completion pops exactly the head.  Moreover, at any state, a send while
the queue is non-empty only appends (initiating no transmission), a
write completion pops exactly the head entry, and a completion that
leaves the queue non-empty starts transmitting the new head. -/
theorem outbound_queue_fifo :
    (∀ evs : List Ev, validFrom fifoInit evs = true →
        (∃ tl, (run fifoInit evs).enq = (run fifoInit evs).written ++ tl)
        ∧ (run fifoInit evs).written.length ≤ (run fifoInit evs).completed + 1
        ∧ (run fifoInit evs).completed ≤ (run fifoInit evs).written.length
        ∧ (run fifoInit evs).m_queue
            = (run fifoInit evs).enq.drop (run fifoInit evs).completed)
    ∧ (∀ (s : WsSession) (seq : String) (buf : Nat) (t : Int) (r : Option Nat),
        s.m_queue ≠ [] →
          (s.asyncSendMessage seq buf { timeout := t } r).written = s.written
          ∧ (s.asyncSendMessage seq buf { timeout := t } r).m_queue = s.m_queue ++ [buf])
    ∧ (∀ s : WsSession, (s.onWritePacket).m_queue = s.m_queue.drop 1)
    ∧ (∀ s : WsSession, s.m_stream = some okStream → s.m_queue.drop 1 ≠ [] →
          (s.onWritePacket).written = s.written ++ (s.m_queue.drop 1).take 1) := by
  refine ⟨?_, ?_, WsSession.onWritePacket_queue, WsSession.onWritePacket_starts_next⟩
  · intro evs hv
    obtain ⟨hst, hq, hw, hlen⟩ := fifoInv_run evs fifoInit fifoInit_inv hv
    have hWlen : (run fifoInit evs).written.length
        = (run fifoInit evs).completed
            + (if (run fifoInit evs).m_queue = [] then 0 else 1) := by
      rw [hw, List.length_take]
      omega
    refine ⟨⟨(run fifoInit evs).enq.drop
        ((run fifoInit evs).completed
          + (if (run fifoInit evs).m_queue = [] then 0 else 1)), ?_⟩, ?_, ?_, hq⟩
    · rw [hw]
      exact (List.take_append_drop _ _).symm
    · rw [hWlen]
      split <;> omega
    · rw [hWlen]
      omega
  · intro s seq buf t r hne
    exact WsSession.asyncSendMessage_busy s seq buf { timeout := t } r hne

/-- Witness for C3: the theorem instantiated at a concrete valid trace
(two sends, two completions) and at concrete mid-transmission states. -/
theorem outbound_queue_fifo_w :
    ((∃ tl, (run fifoInit demoTrace).enq = (run fifoInit demoTrace).written ++ tl)
      ∧ (run fifoInit demoTrace).written.length ≤ (run fifoInit demoTrace).completed + 1
      ∧ (run fifoInit demoTrace).completed ≤ (run fifoInit demoTrace).written.length
      ∧ (run fifoInit demoTrace).m_queue
          = (run fifoInit demoTrace).enq.drop (run fifoInit demoTrace).completed)
    ∧ ((demoBusy.asyncSendMessage "b" 2 { timeout := 0 } none).written = demoBusy.written
        ∧ (demoBusy.asyncSendMessage "b" 2 { timeout := 0 } none).m_queue
            = demoBusy.m_queue ++ [2])
    ∧ (demoBusy2.onWritePacket).m_queue = demoBusy2.m_queue.drop 1
    ∧ (demoBusy2.onWritePacket).written
        = demoBusy2.written ++ (demoBusy2.m_queue.drop 1).take 1 :=
  ⟨outbound_queue_fifo.1 demoTrace (by decide),
   outbound_queue_fifo.2.1 demoBusy "b" 2 0 none (by decide),
   outbound_queue_fifo.2.2.1 demoBusy2,
   outbound_queue_fifo.2.2.2 demoBusy2 (by decide) (by decide)⟩
